import Mathlib

/-!
Verification of the tweet-to-record transform and change-detection pipeline
of the `stpeterinchains-refresh` cloud function.

The development shallowly embeds the core of `src/index.js` (and the later
revision in `src/unnamed/part_000`, which factors the same logic into
`handleContinuation` / `prepare`): the YAML-document-driven tweet transforms
(`eventsTransform`, `bulletinsTransform`), the per-collection processing loop
of `agent` (link expansion, dataset/error accumulation, digest updates), and
the publish decision.  External collaborators (the YAML decoder `js-yaml`,
the URL validity check of `new URL`, the Twitter/GitHub clients and the MD5
finalizer) are modelled as parameters; everything computed by the repository
itself is translated directly from the source.
-/

namespace Refresh

/-- A decoded YAML document value under js-yaml's FAILSAFE_SCHEMA: every
scalar is a string, and the only composites are sequences and mappings
(string keys, as JS object properties after decoding). -/
inductive Yaml : Type
  | s (v : String)
  | seq (items : List Yaml)
  | map (pairs : List (String × Yaml))

/-- JS property lookup on a decoded document: mappings decode to JS objects
(later duplicate keys overwrite earlier ones), and property access on a
string or array scalar yields `undefined` (`none`). -/
def Yaml.get : Yaml → String → Option Yaml
  | .map pairs, key => pairs.foldl (fun acc p => if p.1 = key then some p.2 else acc) none
  | .s _, _ => none
  | .seq _, _ => none

/-- JS truthiness of a destructured document field: `undefined` and the empty
string are falsy; non-empty strings, arrays and objects are truthy. -/
def truthy : Option Yaml → Bool
  | none => false
  | some (.s v) => v ≠ ""
  | some (.seq _) => true
  | some (.map _) => true

/-- Error categories of the per-tweet descriptors, named after the `error`
strings the code writes: `Invalid YAML` (decode failure), `Invalid structure`
(a thrown `TypeError`), `Unexpected error` (anything else). -/
inductive ErrorCategory : Type
  | invalidYaml
  | invalidStructure
  | unexpected
deriving DecidableEq

/-- The per-tweet error descriptor built by the `catch` blocks:
category, reason, optional decoder mark, and the tweet's id. -/
structure ErrorDescriptor where
  category : ErrorCategory
  reason : String
  mark : Option String
  tweetId : String
deriving DecidableEq

/-- The JS exceptions that can arise inside a transform's `try` block:
`YAMLException` from the decoder, `TypeError` from destructuring/validation,
and a plain `Error` (only thrown for a continuation with no primary). -/
inductive JsError : Type
  | yamlExc (reason mark : String)
  | typeError (msg : String)
  | genericError (msg : String)
deriving DecidableEq

/-- Decoder failure data carried by a `YAMLException` (reason and mark). -/
structure YamlError where
  reason : String
  mark : String
deriving DecidableEq

/-- An event record as built by `eventsTransform`:
`{ title, subtitle, color, location, times, descriptive }`, with `times`
holding the destructured value (defaulted to `[]`) and `descriptive` the
trimmed descriptive text. -/
structure EventRec where
  title : Option Yaml
  subtitle : Option Yaml
  color : Option Yaml
  location : Option Yaml
  times : Yaml
  descriptive : String

/-- A bulletin record as built by `bulletinsTransform`:
`{ date, title, subtitle, link, inserts }`. -/
structure BulletinRec where
  date : Option Yaml
  title : Option Yaml
  subtitle : Option Yaml
  link : Option Yaml
  inserts : Yaml

/-- A transform's result triple `[ element, lastNonContinuationElement,
errorDescriptor ]`. -/
structure TransformResult (α : Type) where
  element : Option α
  lastPrimary : Option α
  errorDescriptor : Option ErrorDescriptor

/-- The category of a transform result's error descriptor, if any. -/
def errCategory {α : Type} (r : TransformResult α) : Option ErrorCategory :=
  r.errorDescriptor.map ErrorDescriptor.category

/-- The descriptor the `catch` block builds from the caught exception:
`YAMLException → Invalid YAML`, `TypeError → Invalid structure`, anything
else `→ Unexpected error`; the tweet id is attached afterwards. -/
def mkDescriptor (error : JsError) (tweetId : String) : ErrorDescriptor :=
  match error with
  | .yamlExc reason mark =>
      { category := .invalidYaml, reason := reason, mark := some mark, tweetId := tweetId }
  | .typeError msg =>
      { category := .invalidStructure, reason := msg, mark := none, tweetId := tweetId }
  | .genericError msg =>
      { category := .unexpected, reason := msg, mark := none, tweetId := tweetId }

/-- The `catch` block shared by the transforms (`prepare` in the later
revision): classify the caught exception and return `[ null, null,
descriptor ]`. -/
def prepare {α : Type} (error : JsError) (tweetId : String) : TransformResult α :=
  { element := none
    lastPrimary := none
    errorDescriptor := some (mkDescriptor error tweetId) }

/-- Whitespace removed by JS `String.prototype.trim` (the ASCII part of the
WhiteSpace/LineTerminator productions; the exotic Unicode space characters
do not occur in tweet text). -/
def isJsWhitespace (c : Char) : Bool :=
  c == ' ' || c == '\t' || c == '\n' || c == '\r' ||
  c == '\x0b' || c == '\x0c'

/-- JS `s.trim()` on the character list: strip leading and trailing
whitespace. -/
def trimChars (s : List Char) : List Char :=
  ((s.dropWhile isJsWhitespace).reverse.dropWhile isJsWhitespace).reverse

/-- JS `s.trim()`. -/
def jsTrim (s : String) : String := ⟨trimChars s.data⟩

/-- `descriptiveRaw.trim()`: the default `''` applies when `desc` is absent;
a string field is trimmed; calling `.trim` on an array or object throws a
`TypeError`. -/
def descTrim : Option Yaml → Except JsError String
  | none => .ok ""
  | some (.s v) => .ok (jsTrim v)
  | some (.seq _) => .error (.typeError "descriptiveRaw.trim is not a function")
  | some (.map _) => .error (.typeError "descriptiveRaw.trim is not a function")

/-- One entry of the `times` validation loop: destructuring `{ day, time }`
of the entry and throwing when either is falsy. -/
def checkTimesEntries : List Yaml → Except JsError Unit
  | [] => .ok ()
  | entry :: rest =>
      if truthy (entry.get "day") = false ∨ truthy (entry.get "time") = false then
        .error (.typeError "Day/date or time missing")
      else checkTimesEntries rest

/-- `for (const { day, time } of times) ...`: iterating an array checks each
entry; iterating a non-empty string yields characters whose destructuring
lacks `day`/`time`; an object is not iterable (both throw `TypeError`). -/
def checkTimes : Yaml → Except JsError Unit
  | .seq items => checkTimesEntries items
  | .s v => if v = "" then .ok () else .error (.typeError "Day/date or time missing")
  | .map _ => .error (.typeError "times is not iterable")

/-- The continuation branch (`handleContinuation` in the later revision):
append the continuation's descriptive text to the last primary's, separated
by a blank line when the continuation's text is non-empty; with no primary,
throw a plain `Error`. -/
def handleContinuation (lastNonContinuation : Option EventRec) (descriptive : String) :
    Except JsError (Option EventRec × Option EventRec) :=
  match lastNonContinuation with
  | some last =>
      let separator := if descriptive ≠ "" then "\n\n" else ""
      let merged : EventRec := { last with descriptive := last.descriptive ++ separator ++ descriptive }
      .ok (none, some merged)
  | none => .error (.genericError "Continuation tweet with no primary")

/-- The body of `eventsTransform`'s `try` block after decoding: destructure
the document (destructuring `undefined`/`null` throws), trim the descriptive
text, branch on continuation candidacy, validate `times`, and build the
event record. -/
def eventsTransformDoc (doc? : Option Yaml) (lastNonContinuationEvent : Option EventRec) :
    Except JsError (Option EventRec × Option EventRec) :=
  match doc? with
  | none => .error (.typeError "Cannot destructure property of undefined document")
  | some doc =>
      let title := doc.get "title"
      let subtitle := doc.get "sub"
      let color := doc.get "color"
      let location := doc.get "loc"
      let times := (doc.get "times").getD (Yaml.seq [])
      match descTrim (doc.get "desc") with
      | .error e => .error e
      | .ok descriptive =>
          if truthy title = false ∧ descriptive ≠ "" then
            handleContinuation lastNonContinuationEvent descriptive
          else
            if truthy title = false then
              .error (.typeError "Title missing")
            else
              match checkTimes times with
              | .error e => .error e
              | .ok _ =>
                  let event : EventRec :=
                    { title := title, subtitle := subtitle, color := color,
                      location := location, times := times, descriptive := descriptive }
                  .ok (some event, some event)

/-- The whole `try` block of `eventsTransform`: decode the tweet text
(decoder given as a parameter, failures arriving as `YAMLException`) and run
the document logic. -/
def eventsTransformTry (decode : String → Except YamlError (Option Yaml))
    (tweetText : String) (lastNonContinuationEvent : Option EventRec) :
    Except JsError (Option EventRec × Option EventRec) :=
  match decode tweetText with
  | .error e => .error (.yamlExc e.reason e.mark)
  | .ok doc? => eventsTransformDoc doc? lastNonContinuationEvent

/-- `eventsTransform`: run the `try` block and route any exception through
the `catch` block. -/
def eventsTransform (decode : String → Except YamlError (Option Yaml))
    (tweetId tweetText : String) (lastNonContinuationEvent : Option EventRec) :
    TransformResult EventRec :=
  match eventsTransformTry decode tweetText lastNonContinuationEvent with
  | .ok (element, lastPrimary) =>
      { element := element, lastPrimary := lastPrimary, errorDescriptor := none }
  | .error e => prepare e tweetId

/-- The code's continuation test, reading a successfully decoded document:
the trimmed descriptive text is non-empty and the title is falsy
(`continuation = ! title && descriptive`).  A document whose `desc` field
fails to trim is not a continuation candidate (the `TypeError` wins). -/
def contCandidate (doc : Yaml) : Bool :=
  match descTrim (doc.get "desc") with
  | .ok d => !truthy (doc.get "title") && d != ""
  | .error _ => false

/-- The trimmed descriptive text of a continuation candidate. -/
def contDesc (doc : Yaml) : String :=
  match descTrim (doc.get "desc") with
  | .ok d => d
  | .error _ => ""

/-- `new URL(link)` succeeds only on a syntactically valid URL; a missing
link (`undefined`) always fails.  URL syntax itself is external, so the
string-level check is a parameter. -/
def linkOk (validURL : Yaml → Bool) : Option Yaml → Bool
  | none => false
  | some y => validURL y

/-- One entry of the `inserts` validation loop: destructure `{ title, link }`
and throw when the title is falsy or the link invalid. -/
def checkInsertsEntries (validURL : Yaml → Bool) : List Yaml → Except JsError Unit
  | [] => .ok ()
  | entry :: rest =>
      if truthy (entry.get "title") = false then
        .error (.typeError "Insert title missing")
      else if linkOk validURL (entry.get "link") = false then
        .error (.typeError "Insert link missing or invalid")
      else checkInsertsEntries validURL rest

/-- `for (const { title, link } of inserts) ...` with the same iteration
semantics as the `times` loop. -/
def checkInserts (validURL : Yaml → Bool) : Yaml → Except JsError Unit
  | .seq items => checkInsertsEntries validURL items
  | .s v => if v = "" then .ok () else .error (.typeError "Insert title missing")
  | .map _ => .error (.typeError "inserts is not iterable")

/-- The body of `bulletinsTransform`'s `try` block after decoding. -/
def bulletinsTransformDoc (validURL : Yaml → Bool) (doc? : Option Yaml) :
    Except JsError (Option BulletinRec × Option BulletinRec) :=
  match doc? with
  | none => .error (.typeError "Cannot destructure property of undefined document")
  | some doc =>
      let date := doc.get "date"
      let title := doc.get "title"
      let subtitle := doc.get "sub"
      let link := doc.get "link"
      let inserts := (doc.get "inserts").getD (Yaml.seq [])
      if truthy date = false ∨ truthy title = false then
        .error (.typeError "Bulletin date or title missing")
      else if linkOk validURL link = false then
        .error (.typeError "Bulletin link missing or invalid")
      else
        match checkInserts validURL inserts with
        | .error e => .error e
        | .ok _ =>
            let bulletin : BulletinRec :=
              { date := date, title := title, subtitle := subtitle,
                link := link, inserts := inserts }
            .ok (some bulletin, none)

/-- The whole `try` block of `bulletinsTransform`. -/
def bulletinsTransformTry (decode : String → Except YamlError (Option Yaml))
    (validURL : Yaml → Bool) (tweetText : String) :
    Except JsError (Option BulletinRec × Option BulletinRec) :=
  match decode tweetText with
  | .error e => .error (.yamlExc e.reason e.mark)
  | .ok doc? => bulletinsTransformDoc validURL doc?

/-- `bulletinsTransform`: bulletins have no continuations, so the last
element slot of the result is always `null`. -/
def bulletinsTransform (decode : String → Except YamlError (Option Yaml))
    (validURL : Yaml → Bool) (tweetId tweetText : String) :
    TransformResult BulletinRec :=
  match bulletinsTransformTry decode validURL tweetText with
  | .ok (element, lastPrimary) =>
      { element := element, lastPrimary := lastPrimary, errorDescriptor := none }
  | .error e => prepare e tweetId

/-- One of a tweet's embedded link entities:
`{ url: linkShortened, expanded_url: linkExpanded }`. -/
structure TweetLink where
  url : String
  expandedUrl : String

/-- A tweet from the lookup table: `{ full_text, entities: { urls } }`. -/
structure Tweet where
  fullText : String
  links : List TweetLink

/-- Whether `pat` is a prefix of `s` (character lists standing for JS
strings). -/
def matchesAt : List Char → List Char → Bool
  | [], _ => true
  | _ :: _, [] => false
  | p :: ps, c :: cs => p == c && matchesAt ps cs

/-- JS `String.prototype.replace` with a string pattern: replace only the
first (leftmost) occurrence of `pat`, leaving the string unchanged when the
pattern does not occur.  (`$`-substitution patterns in the replacement are
not modelled; expanded t.co URLs contain none.) -/
def replaceFirstChars (pat repl : List Char) (s : List Char) : List Char :=
  if matchesAt pat s then repl ++ s.drop pat.length
  else
    match s with
    | [] => []
    | c :: rest => c :: replaceFirstChars pat repl rest

/-- String wrapper for `replaceFirstChars`. -/
def replaceFirst (s pat repl : String) : String :=
  ⟨replaceFirstChars pat.data repl.data s.data⟩

/-- The link-expansion loop of `agent`:
`tweetTextExpandedLinks = tweetTextExpandedLinks.replace(linkShortened,
linkExpanded)` folded over the tweet's link entities in order. -/
def expandLinks (tweetText : String) (links : List TweetLink) : String :=
  links.foldl (fun acc l => replaceFirst acc l.url l.expandedUrl) tweetText

/-- Modelled from the spec: `textual substitution of every occurrence of
each short token` — replaces every (non-overlapping, leftmost-first)
occurrence of `pat`.  Used only to compare the code's behaviour against the
spec's words; the empty pattern is left untouched. -/
def replaceAllChars (pat repl : List Char) (s : List Char) : List Char :=
  match s with
  | [] => []
  | c :: rest =>
      if pat ≠ [] ∧ matchesAt pat (c :: rest) then
        repl ++ replaceAllChars pat repl (rest.drop (pat.length - 1))
      else
        c :: replaceAllChars pat repl rest
termination_by s.length
decreasing_by
  · simp only [List.length_cons, List.length_drop]
    omega
  · simp only [List.length_cons]
    omega

/-- String wrapper for `replaceAllChars` (the spec-described substitution). -/
def replaceAllSpec (s pat repl : String) : String :=
  ⟨replaceAllChars pat.data repl.data s.data⟩

/-- Number of positions of `s` at which `pat` matches (occurrences,
counting overlapping ones). -/
def countMatches (pat : List Char) : List Char → Nat
  | [] => 0
  | c :: rest =>
      (if matchesAt pat (c :: rest) then 1 else 0) + countMatches pat rest

/-- The per-collection accumulation state of `agent`'s processing loop:
the dataset and error arrays, the sequence of strings fed to the digest
accumulator (`hash.update`), and the carried last-primary pointer. -/
structure CollState (α : Type) where
  dataset : List α
  errors : List ErrorDescriptor
  digestUpdates : List String
  lastPrimary : Option α

/-- The state at the start of each collection: empty arrays, fresh hash,
`lastNonContinuationElement = null`. -/
def initState {α : Type} : CollState α := ⟨[], [], [], none⟩

/-- One iteration of `agent`'s inner loop: look the tweet up, expand its
links, run the transform on the expanded text, push the element and error
descriptor when present, update the digest with the raw text, and carry the
returned last-primary pointer. -/
def processTweet {α : Type} (transform : String → String → Option α → TransformResult α)
    (tweets : String → Tweet) (st : CollState α) (tweetId : String) : CollState α :=
  let tw := tweets tweetId
  let expandedText := expandLinks tw.fullText tw.links
  let result := transform tweetId expandedText st.lastPrimary
  { dataset := st.dataset ++ result.element.toList
    errors := st.errors ++ result.errorDescriptor.toList
    digestUpdates := st.digestUpdates ++ [tw.fullText]
    lastPrimary := result.lastPrimary }

/-- `agent`'s inner loop over a collection's timeline, in API order. -/
def processCollection {α : Type} (transform : String → String → Option α → TransformResult α)
    (tweets : String → Tweet) : List String → CollState α → CollState α
  | [], st => st
  | tweetId :: rest, st =>
      processCollection transform tweets rest (processTweet transform tweets st tweetId)

/-- The byte stream an incremental hash receives from the per-tweet
`hash.update` calls: the concatenation of the updates, with no separator. -/
def digestInput (texts : List String) : String := String.join texts

/-- The finalized digest of a collection: the (external) fingerprint
function applied to the accumulated input. -/
def collectionDigest (finalize : String → String) (texts : List String) : String :=
  finalize (digestInput texts)

/-- The four per-collection digests of the published artifact, in the fixed
array order `[announcements, regularEvents, specialEvents, bulletins]`
(positional identity). -/
structure Digests where
  announcements : String
  regularEvents : String
  specialEvents : String
  bulletins : String
deriving DecidableEq

/-- `collectionsUpdated`: true when any freshly computed digest differs from
the published digest at the same position. -/
def collectionsUpdated (previous computed : Digests) : Bool :=
  (previous.announcements != computed.announcements) ||
  (previous.regularEvents != computed.regularEvents) ||
  (previous.specialEvents != computed.specialEvents) ||
  (previous.bulletins != computed.bulletins)

/-- What `agent` does after the digest comparison: commit the artifact to
the store, emit it to the log for inspection (dry run, no store write), or
write nothing. -/
inductive PublishAction : Type
  | commit
  | dryRunEmit
  | noUpdates
deriving DecidableEq

/-- The publish decision of the later revision:
`if (collectionsUpdated || dryRun) { if (!dryRun) commit else log } else
log nothing`. -/
def publishDecision (previous computed : Digests) (dryRun : Bool) : PublishAction :=
  if collectionsUpdated previous computed || dryRun then
    if !dryRun then .commit else .dryRunEmit
  else .noUpdates

/-! ### Concrete scenario data

Closed instances of the external collaborators, used to exercise the
pipeline on explicit inputs. -/

/-- A decoder on which every text fails to decode. -/
def failAllDecode : String → Except YamlError (Option Yaml) :=
  fun _ => .error ⟨"unexpected end of the stream", "line 1, column 1"⟩

/-- A decoder on which every text decodes to the empty document
(`undefined`). -/
def emptyDocDecode : String → Except YamlError (Option Yaml) := fun _ => .ok none

/-- A continuation-candidate document: no title, `desc: world`. -/
def contDocExample : Yaml := .map [("desc", .s "world")]

/-- A decoder on which every text decodes to the continuation candidate. -/
def contOnlyDecode : String → Except YamlError (Option Yaml) :=
  fun _ => .ok (some contDocExample)

/-- A decoder: `"title-only"` decodes to a title-only document (absent
`desc`, hence empty descriptive text), anything else to the continuation
candidate. -/
def titleThenContDecode : String → Except YamlError (Option Yaml) := fun t =>
  if t = "title-only" then .ok (some (.map [("title", .s "A")]))
  else .ok (some contDocExample)

/-- A decoder on which every text decodes to a bare mapping (no fields). -/
def bareDocDecode : String → Except YamlError (Option Yaml) :=
  fun _ => .ok (some (.map []))

/-- A bulletin document carrying a date and a title but no link. -/
def badLinkDoc : Yaml := .map [("date", .s "Jan 1"), ("title", .s "B")]

/-- A decoder on which every text decodes to the no-link bulletin. -/
def badLinkDecode : String → Except YamlError (Option Yaml) :=
  fun _ => .ok (some badLinkDoc)

/-- An event document with a truthy title whose single `times` entry lacks
a time. -/
def badTimesDoc : Yaml :=
  .map [("title", .s "E"), ("times", .seq [.map [("day", .s "Mon")]])]

/-- A decoder on which every text decodes to the bad-times event. -/
def badTimesDecode : String → Except YamlError (Option Yaml) :=
  fun _ => .ok (some badTimesDoc)

/-- A bulletin document with date, title and a top-level link, whose single
insert entry has a title but no link. -/
def badInsertDoc : Yaml :=
  .map [("date", .s "D"), ("title", .s "T"), ("link", .s "https://x"),
        ("inserts", .seq [.map [("title", .s "I")]])]

/-- A decoder on which every text decodes to the bad-insert bulletin. -/
def badInsertDecode : String → Except YamlError (Option Yaml) :=
  fun _ => .ok (some badInsertDoc)

/-- Tweet lookup: `"p1"` has raw text `"a"`, everything else raw text `""`;
no embedded links. -/
def reorderTweets : String → Tweet := fun tid =>
  if tid = "p1" then ⟨"a", []⟩ else ⟨"", []⟩

/-- Tweet lookup: `"p1"` has raw text `"bad"`, everything else `"cont"`. -/
def failThenContTweets : String → Tweet := fun tid =>
  if tid = "p1" then ⟨"bad", []⟩ else ⟨"cont", []⟩

/-- A decoder: `"bad"` fails to decode, anything else decodes to the
continuation candidate. -/
def failThenContDecode : String → Except YamlError (Option Yaml) := fun t =>
  if t = "bad" then .error ⟨"bad indent", "line 2"⟩
  else .ok (some contDocExample)

/-- A concrete primary event record with empty descriptive text. -/
def evExample : EventRec := ⟨some (.s "A"), none, none, none, .seq [], ""⟩

/-- A collection state in which a valid primary was already emitted and the
last-primary pointer holds it. -/
def stWithPrimary : CollState EventRec := ⟨[evExample], [], ["x"], some evExample⟩

/-- The descriptor produced for `"bad"` under `failThenContDecode`. -/
def badDescr : ErrorDescriptor := ⟨.invalidYaml, "bad indent", some "line 2", "p1"⟩

/-! ### Support lemmas about the transforms -/

/-- Every error of `descTrim` is a `TypeError`. -/
theorem descTrim_error (v : Option Yaml) (e : JsError) (h : descTrim v = .error e) :
    ∃ m, e = .typeError m := by
  cases v with
  | none => simp [descTrim] at h
  | some y =>
      cases y with
      | s w => simp [descTrim] at h
      | seq items => exact ⟨_, (Except.error.inj h).symm⟩
      | map pairs => exact ⟨_, (Except.error.inj h).symm⟩

/-- Every error of the `times` entry loop is a `TypeError`. -/
theorem checkTimesEntries_error (l : List Yaml) (e : JsError)
    (h : checkTimesEntries l = .error e) : ∃ m, e = .typeError m := by
  induction l with
  | nil => simp [checkTimesEntries] at h
  | cons a rest ih =>
      simp only [checkTimesEntries] at h
      split at h
      · exact ⟨_, (Except.error.inj h).symm⟩
      · exact ih h

/-- Every error of the `times` validation is a `TypeError`. -/
theorem checkTimes_error (y : Yaml) (e : JsError) (h : checkTimes y = .error e) :
    ∃ m, e = .typeError m := by
  cases y with
  | s v =>
      simp only [checkTimes] at h
      split at h
      · simp at h
      · exact ⟨_, (Except.error.inj h).symm⟩
  | seq items => exact checkTimesEntries_error items e h
  | map pairs => exact ⟨_, (Except.error.inj h).symm⟩

/-- `handleContinuation` fails only when there is no primary, and then with
the plain `Error` message. -/
theorem handleContinuation_error (lp : Option EventRec) (d : String) (e : JsError)
    (h : handleContinuation lp d = .error e) :
    lp = none ∧ e = .genericError "Continuation tweet with no primary" := by
  cases lp with
  | some last => simp [handleContinuation] at h
  | none => exact ⟨rfl, (Except.error.inj h).symm⟩

/-- Every error of the document-level event logic is a `TypeError` or the
continuation-with-no-primary `Error`. -/
theorem eventsTransformDoc_error_kind (doc? : Option Yaml) (lp : Option EventRec)
    (e : JsError) (h : eventsTransformDoc doc? lp = .error e) :
    (∃ m, e = .typeError m) ∨ e = .genericError "Continuation tweet with no primary" := by
  cases doc? with
  | none => exact .inl ⟨_, (Except.error.inj h).symm⟩
  | some doc =>
      cases hd : descTrim (doc.get "desc") with
      | error e2 =>
          simp only [eventsTransformDoc, hd] at h
          obtain ⟨m, hm⟩ := descTrim_error _ _ hd
          exact .inl ⟨m, ((Except.error.inj h).symm.trans hm)⟩
      | ok d =>
          simp only [eventsTransformDoc, hd] at h
          by_cases hcont : truthy (doc.get "title") = false ∧ d ≠ ""
          · rw [if_pos hcont] at h
            exact .inr (handleContinuation_error _ _ _ h).2
          · rw [if_neg hcont] at h
            by_cases htitle : truthy (doc.get "title") = false
            · rw [if_pos htitle] at h
              exact .inl ⟨_, (Except.error.inj h).symm⟩
            · rw [if_neg htitle] at h
              cases hc : checkTimes ((doc.get "times").getD (Yaml.seq [])) with
              | error e3 =>
                  simp only [hc] at h
                  obtain ⟨m, hm⟩ := checkTimes_error _ _ hc
                  exact .inl ⟨m, (Except.error.inj h).symm.trans hm⟩
              | ok u => simp only [hc] at h; simp at h

/-- A successful event transform result is either a fresh primary record
(returned as both element and last-primary) or a continuation merge (no
element, a merged last-primary). -/
theorem eventsTransformDoc_ok_shape (doc? : Option Yaml) (lp el l : Option EventRec)
    (h : eventsTransformDoc doc? lp = .ok (el, l)) :
    (∃ ev, el = some ev ∧ l = some ev) ∨ (el = none ∧ ∃ m, l = some m) := by
  cases doc? with
  | none => simp [eventsTransformDoc] at h
  | some doc =>
      cases hd : descTrim (doc.get "desc") with
      | error e2 => simp [eventsTransformDoc, hd] at h
      | ok d =>
          simp only [eventsTransformDoc, hd] at h
          by_cases hcont : truthy (doc.get "title") = false ∧ d ≠ ""
          · rw [if_pos hcont] at h
            cases lp with
            | some last =>
                simp only [handleContinuation, Except.ok.injEq, Prod.mk.injEq] at h
                exact .inr ⟨h.1.symm, _, h.2.symm⟩
            | none => simp [handleContinuation] at h
          · rw [if_neg hcont] at h
            by_cases htitle : truthy (doc.get "title") = false
            · rw [if_pos htitle] at h
              simp at h
            · rw [if_neg htitle] at h
              cases hc : checkTimes ((doc.get "times").getD (Yaml.seq [])) with
              | error e3 => simp [hc] at h
              | ok u =>
                  simp only [hc, Except.ok.injEq, Prod.mk.injEq] at h
                  exact .inl ⟨_, h.1.symm, h.2.symm⟩

/-- When the transform reports an error, the whole result is the `catch`
block's triple: no element, no last-primary, just the descriptor. -/
theorem eventsTransform_error_shape (decode : String → Except YamlError (Option Yaml))
    (tid text : String) (lp : Option EventRec) (d : ErrorDescriptor)
    (h : (eventsTransform decode tid text lp).errorDescriptor = some d) :
    eventsTransform decode tid text lp = ⟨none, none, some d⟩ := by
  unfold eventsTransform at h ⊢
  cases ht : eventsTransformTry decode text lp with
  | ok p =>
      rw [ht] at h
      obtain ⟨el, l⟩ := p
      exact Option.noConfusion h
  | error e =>
      rw [ht] at h
      have hd2 : mkDescriptor e tid = d := Option.some.inj h
      rw [← hd2]
      rfl

/-- A continuation candidate processed against a present last-primary always
merges with a blank-line separator. -/
theorem eventsTransformDoc_cont_some (doc : Yaml) (ev : EventRec)
    (h : contCandidate doc = true) :
    eventsTransformDoc (some doc) (some ev) =
      .ok (none, some { ev with descriptive := ev.descriptive ++ "\n\n" ++ contDesc doc }) := by
  unfold contCandidate at h
  cases hd : descTrim (doc.get "desc") with
  | error e => rw [hd] at h; simp at h
  | ok d =>
      rw [hd] at h
      simp only [Bool.and_eq_true, Bool.not_eq_true', bne_iff_ne] at h
      simp only [eventsTransformDoc, hd]
      rw [if_pos ⟨h.1, h.2⟩]
      simp only [handleContinuation, contDesc, hd]
      rw [if_pos h.2]

/-- A continuation candidate processed with no last-primary throws the
continuation-with-no-primary `Error`. -/
theorem eventsTransformDoc_cont_none (doc : Yaml) (h : contCandidate doc = true) :
    eventsTransformDoc (some doc) none =
      .error (.genericError "Continuation tweet with no primary") := by
  unfold contCandidate at h
  cases hd : descTrim (doc.get "desc") with
  | error e => rw [hd] at h; simp at h
  | ok d =>
      rw [hd] at h
      simp only [Bool.and_eq_true, Bool.not_eq_true', bne_iff_ne] at h
      simp only [eventsTransformDoc, hd]
      rw [if_pos ⟨h.1, h.2⟩]
      rfl

/-- Every error of the `inserts` entry loop is a `TypeError`. -/
theorem checkInsertsEntries_error (validURL : Yaml → Bool) (l : List Yaml) (e : JsError)
    (h : checkInsertsEntries validURL l = .error e) : ∃ m, e = .typeError m := by
  induction l with
  | nil => simp [checkInsertsEntries] at h
  | cons a rest ih =>
      simp only [checkInsertsEntries] at h
      split at h
      · exact ⟨_, (Except.error.inj h).symm⟩
      · split at h
        · exact ⟨_, (Except.error.inj h).symm⟩
        · exact ih h

/-- Every error of the `inserts` validation is a `TypeError`. -/
theorem checkInserts_error (validURL : Yaml → Bool) (y : Yaml) (e : JsError)
    (h : checkInserts validURL y = .error e) : ∃ m, e = .typeError m := by
  cases y with
  | s v =>
      simp only [checkInserts] at h
      split at h
      · simp at h
      · exact ⟨_, (Except.error.inj h).symm⟩
  | seq items => exact checkInsertsEntries_error validURL items e h
  | map pairs => exact ⟨_, (Except.error.inj h).symm⟩

/-- Every error of the document-level bulletin logic is a `TypeError`. -/
theorem bulletinsTransformDoc_error_kind (validURL : Yaml → Bool) (doc? : Option Yaml)
    (e : JsError) (h : bulletinsTransformDoc validURL doc? = .error e) :
    ∃ m, e = .typeError m := by
  cases doc? with
  | none => exact ⟨_, (Except.error.inj h).symm⟩
  | some doc =>
      simp only [bulletinsTransformDoc] at h
      by_cases h1 : truthy (doc.get "date") = false ∨ truthy (doc.get "title") = false
      · rw [if_pos h1] at h
        exact ⟨_, (Except.error.inj h).symm⟩
      · rw [if_neg h1] at h
        by_cases h2 : linkOk validURL (doc.get "link") = false
        · rw [if_pos h2] at h
          exact ⟨_, (Except.error.inj h).symm⟩
        · rw [if_neg h2] at h
          cases hc : checkInserts validURL ((doc.get "inserts").getD (Yaml.seq [])) with
          | error e3 =>
              simp only [hc] at h
              obtain ⟨m, hm⟩ := checkInserts_error _ _ _ hc
              exact ⟨m, ((Except.error.inj h).symm.trans hm)⟩
          | ok u => simp [hc] at h

/-- Error shape for `bulletinsTransform`: the descriptor always comes from
the `catch` block over the `try` block's exception. -/
theorem bulletinsTransform_descriptor (decode : String → Except YamlError (Option Yaml))
    (validURL : Yaml → Bool) (tid text : String) (d : ErrorDescriptor)
    (h : (bulletinsTransform decode validURL tid text).errorDescriptor = some d) :
    ∃ e, bulletinsTransformTry decode validURL text = .error e ∧ d = mkDescriptor e tid := by
  unfold bulletinsTransform at h
  cases ht : bulletinsTransformTry decode validURL text with
  | ok p =>
      rw [ht] at h
      obtain ⟨el, l⟩ := p
      exact Option.noConfusion h
  | error e =>
      rw [ht] at h
      exact ⟨e, rfl, (Option.some.inj h).symm⟩

/-- Error provenance for `eventsTransform`: the descriptor always comes from
the `catch` block over the `try` block's exception. -/
theorem eventsTransform_descriptor (decode : String → Except YamlError (Option Yaml))
    (tid text : String) (lp : Option EventRec) (d : ErrorDescriptor)
    (h : (eventsTransform decode tid text lp).errorDescriptor = some d) :
    ∃ e, eventsTransformTry decode text lp = .error e ∧ d = mkDescriptor e tid := by
  unfold eventsTransform at h
  cases ht : eventsTransformTry decode text lp with
  | ok p =>
      rw [ht] at h
      obtain ⟨el, l⟩ := p
      exact Option.noConfusion h
  | error e =>
      rw [ht] at h
      exact ⟨e, rfl, (Option.some.inj h).symm⟩

/-- A decode failure routes the transform straight to the `catch` block with
the `YAMLException`. -/
theorem eventsTransform_decode_error (decode : String → Except YamlError (Option Yaml))
    (tid text : String) (lp : Option EventRec) (ye : YamlError)
    (h : decode text = .error ye) :
    eventsTransform decode tid text lp = prepare (.yamlExc ye.reason ye.mark) tid := by
  unfold eventsTransform eventsTransformTry
  rw [h]

/-- A decode failure routes the bulletin transform straight to the `catch`
block with the `YAMLException`. -/
theorem bulletinsTransform_decode_error (decode : String → Except YamlError (Option Yaml))
    (validURL : Yaml → Bool) (tid text : String) (ye : YamlError)
    (h : decode text = .error ye) :
    bulletinsTransform decode validURL tid text = prepare (.yamlExc ye.reason ye.mark) tid := by
  unfold bulletinsTransform bulletinsTransformTry
  rw [h]

/-- Only a `YAMLException` produces an `Invalid YAML` descriptor. -/
theorem mkDescriptor_category_yaml (e : JsError) (tid : String)
    (h : (mkDescriptor e tid).category = .invalidYaml) : ∃ r m, e = .yamlExc r m := by
  cases e with
  | yamlExc r m => exact ⟨r, m, rfl⟩
  | typeError m => simp [mkDescriptor] at h
  | genericError m => simp [mkDescriptor] at h

/-- The descriptor always carries the failing tweet's id. -/
theorem mkDescriptor_tweetId (e : JsError) (tid : String) :
    (mkDescriptor e tid).tweetId = tid := by
  cases e <;> rfl

/-- A continuation candidate run by the full transform with a present
last-primary: merge result with the blank-line separator. -/
theorem eventsTransform_cont_some (decode : String → Except YamlError (Option Yaml))
    (tid text : String) (doc : Yaml) (ev : EventRec)
    (hdec : decode text = .ok (some doc)) (hc : contCandidate doc = true) :
    eventsTransform decode tid text (some ev) =
      { element := none,
        lastPrimary := some { ev with descriptive := ev.descriptive ++ "\n\n" ++ contDesc doc },
        errorDescriptor := none } := by
  have h1 : eventsTransformTry decode text (some ev) =
      .ok (none, some { ev with descriptive := ev.descriptive ++ "\n\n" ++ contDesc doc }) := by
    unfold eventsTransformTry
    rw [hdec]
    exact eventsTransformDoc_cont_some doc ev hc
  unfold eventsTransform
  rw [h1]

/-- A continuation candidate run by the full transform with no last-primary:
the `Unexpected error` descriptor and nothing else. -/
theorem eventsTransform_cont_none (decode : String → Except YamlError (Option Yaml))
    (tid text : String) (doc : Yaml)
    (hdec : decode text = .ok (some doc)) (hc : contCandidate doc = true) :
    eventsTransform decode tid text none =
      { element := none,
        lastPrimary := none,
        errorDescriptor :=
          some ⟨.unexpected, "Continuation tweet with no primary", none, tid⟩ } := by
  have h1 : eventsTransformTry decode text none =
      .error (.genericError "Continuation tweet with no primary") := by
    unfold eventsTransformTry
    rw [hdec]
    exact eventsTransformDoc_cont_none doc hc
  unfold eventsTransform
  rw [h1]
  rfl

/-- A document whose title is falsy and which is not a continuation
candidate fails the document logic with a `TypeError`. -/
theorem eventsTransformDoc_missing_title (doc : Yaml) (lp : Option EventRec)
    (ht : truthy (doc.get "title") = false) (hc : contCandidate doc = false) :
    ∃ m, eventsTransformDoc (some doc) lp = .error (.typeError m) := by
  cases hd : descTrim (doc.get "desc") with
  | error e =>
      obtain ⟨m, hm⟩ := descTrim_error _ _ hd
      refine ⟨m, ?_⟩
      simp only [eventsTransformDoc, hd]
      rw [hm]
  | ok d =>
      have hd0 : d = "" := by
        unfold contCandidate at hc
        rw [hd] at hc
        simpa [ht] using hc
      refine ⟨"Title missing", ?_⟩
      simp only [eventsTransformDoc, hd]
      rw [if_neg (by simp [hd0]), if_pos ht]

/-! ### Support lemmas about the processing loop -/

/-- Unfolding one loop iteration. -/
theorem processCollection_cons {α : Type}
    (transform : String → String → Option α → TransformResult α)
    (tweets : String → Tweet) (t : String) (rest : List String) (st : CollState α) :
    processCollection transform tweets (t :: rest) st =
      processCollection transform tweets rest (processTweet transform tweets st t) := rfl

/-- The digest accumulator receives exactly the raw (`full_text`) text of
every timeline entry, in order, one update per tweet, whatever the
transform does. -/
theorem processCollection_digestUpdates {α : Type}
    (transform : String → String → Option α → TransformResult α)
    (tweets : String → Tweet) (timeline : List String) (st : CollState α) :
    (processCollection transform tweets timeline st).digestUpdates
      = st.digestUpdates ++ timeline.map (fun tid => (tweets tid).fullText) := by
  induction timeline generalizing st with
  | nil => simp [processCollection]
  | cons t rest ih =>
      rw [processCollection_cons, ih]
      simp [processTweet]

/-! ### Support lemmas about link expansion -/

/-- A position match survives prepending a character to the haystack's
countMatches bound. -/
theorem countMatches_cons_ge (pat : List Char) (c : Char) (rest : List Char) :
    countMatches pat rest ≤ countMatches pat (c :: rest) := by
  cases h : matchesAt pat (c :: rest) <;> simp [countMatches, h]

/-- Dropping a fragment cannot create occurrences. -/
theorem countMatches_drop_le (pat l : List Char) (n : Nat) :
    countMatches pat (l.drop n) ≤ countMatches pat l := by
  induction l generalizing n with
  | nil => simp [List.drop_nil]
  | cons c rest ih =>
      cases n with
      | zero => simp
      | succ m =>
          simp only [List.drop_succ_cons]
          exact le_trans (ih m) (countMatches_cons_ge pat c rest)

/-- With no occurrence, the spec's replace-every-occurrence is the
identity. -/
theorem replaceAllChars_no_match (pat repl s : List Char)
    (h : countMatches pat s = 0) : replaceAllChars pat repl s = s := by
  induction s with
  | nil => simp [replaceAllChars]
  | cons c rest ih =>
      have hm : matchesAt pat (c :: rest) = false := by
        cases hmm : matchesAt pat (c :: rest)
        · rfl
        · rw [countMatches, hmm] at h
          simp at h
      have hrest : countMatches pat rest = 0 := by
        rw [countMatches, hm] at h
        simpa using h
      rw [replaceAllChars, if_neg (by simp [hm]), ih hrest]

/-- When the pattern occurs at most once, replacing the first occurrence
(what the code does) and replacing every occurrence (what the spec says)
coincide. -/
theorem replaceFirst_eq_replaceAll_chars (pat repl s : List Char)
    (hp : pat ≠ []) (h : countMatches pat s ≤ 1) :
    replaceFirstChars pat repl s = replaceAllChars pat repl s := by
  induction s with
  | nil =>
      have hm : matchesAt pat [] = false := by
        cases pat with
        | nil => exact absurd rfl hp
        | cons p ps => rfl
      simp [replaceFirstChars, replaceAllChars, hm]
  | cons c rest ih =>
      cases hm : matchesAt pat (c :: rest) with
      | true =>
          have hrest0 : countMatches pat rest = 0 := by
            rw [countMatches, hm] at h
            simp at h
            omega
          have hdrop : countMatches pat (rest.drop (pat.length - 1)) = 0 :=
            Nat.le_zero.mp (hrest0 ▸ countMatches_drop_le pat rest (pat.length - 1))
          have hlen : pat.length - 1 + 1 = pat.length :=
            Nat.succ_pred_eq_of_pos (List.length_pos.mpr hp)
          rw [replaceFirstChars, if_pos hm, replaceAllChars, if_pos ⟨hp, hm⟩,
            replaceAllChars_no_match pat repl _ hdrop, ← hlen, List.drop_succ_cons]
          simp
      | false =>
          have hrest : countMatches pat rest ≤ 1 := by
            rw [countMatches, hm] at h
            simpa using h
          rw [replaceFirstChars, if_neg (by simp [hm]), replaceAllChars,
            if_neg (by simp [hm]), ih hrest]

/-- An `Invalid YAML` descriptor arises from `eventsTransform` exactly when
the decoder failed. -/
theorem events_invalidYaml_iff (decode : String → Except YamlError (Option Yaml))
    (tid text : String) (lp : Option EventRec) :
    errCategory (eventsTransform decode tid text lp) = some .invalidYaml ↔
      ∃ e, decode text = .error e := by
  constructor
  · intro h
    cases hdesc : (eventsTransform decode tid text lp).errorDescriptor with
    | none => simp [errCategory, hdesc] at h
    | some d =>
        simp only [errCategory, hdesc, Option.map_some', Option.some.injEq] at h
        obtain ⟨e, hTry, hd⟩ := eventsTransform_descriptor decode tid text lp d hdesc
        obtain ⟨r, m, he⟩ := mkDescriptor_category_yaml e tid (by rw [hd] at h; exact h)
        subst he
        unfold eventsTransformTry at hTry
        cases hdec : decode text with
        | error ye => exact ⟨ye, rfl⟩
        | ok doc? =>
            rw [hdec] at hTry
            rcases eventsTransformDoc_error_kind doc? lp _ hTry with ⟨m2, hm2⟩ | hg
            · exact absurd hm2 (by simp)
            · exact absurd hg (by simp)
  · rintro ⟨ye, hye⟩
    rw [eventsTransform_decode_error decode tid text lp ye hye]
    rfl

/-- An `Invalid YAML` descriptor arises from `bulletinsTransform` exactly
when the decoder failed. -/
theorem bulletins_invalidYaml_iff (decode : String → Except YamlError (Option Yaml))
    (validURL : Yaml → Bool) (tid text : String) :
    errCategory (bulletinsTransform decode validURL tid text) = some .invalidYaml ↔
      ∃ e, decode text = .error e := by
  constructor
  · intro h
    cases hdesc : (bulletinsTransform decode validURL tid text).errorDescriptor with
    | none => simp [errCategory, hdesc] at h
    | some d =>
        simp only [errCategory, hdesc, Option.map_some', Option.some.injEq] at h
        obtain ⟨e, hTry, hd⟩ := bulletinsTransform_descriptor decode validURL tid text d hdesc
        obtain ⟨r, m, he⟩ := mkDescriptor_category_yaml e tid (by rw [hd] at h; exact h)
        subst he
        unfold bulletinsTransformTry at hTry
        cases hdec : decode text with
        | error ye => exact ⟨ye, rfl⟩
        | ok doc? =>
            rw [hdec] at hTry
            obtain ⟨m2, hm2⟩ := bulletinsTransformDoc_error_kind validURL doc? _ hTry
            exact absurd hm2 (by simp)
  · rintro ⟨ye, hye⟩
    rw [bulletinsTransform_decode_error decode validURL tid text ye hye]
    rfl

/-- A decoded document with a falsy title that is not a continuation
candidate is reported as `Invalid structure`. -/
theorem events_missing_title_invalidStructure
    (decode : String → Except YamlError (Option Yaml)) (tid text : String)
    (doc : Yaml) (lp : Option EventRec)
    (hdec : decode text = .ok (some doc))
    (ht : truthy (doc.get "title") = false) (hc : contCandidate doc = false) :
    errCategory (eventsTransform decode tid text lp) = some .invalidStructure := by
  obtain ⟨m, hm⟩ := eventsTransformDoc_missing_title doc lp ht hc
  have h1 : eventsTransformTry decode text lp = .error (.typeError m) := by
    unfold eventsTransformTry
    rw [hdec]
    exact hm
  unfold eventsTransform
  rw [h1]
  rfl

/-- A decoded bulletin with truthy date and title but an invalid (or
missing) link is reported as `Invalid structure`. -/
theorem bulletins_bad_link_invalidStructure
    (decode : String → Except YamlError (Option Yaml)) (validURL : Yaml → Bool)
    (tid text : String) (doc : Yaml)
    (hdec : decode text = .ok (some doc))
    (hdate : truthy (doc.get "date") = true) (htitle : truthy (doc.get "title") = true)
    (hlink : linkOk validURL (doc.get "link") = false) :
    errCategory (bulletinsTransform decode validURL tid text) = some .invalidStructure := by
  have h1 : bulletinsTransformTry decode validURL text =
      .error (.typeError "Bulletin link missing or invalid") := by
    unfold bulletinsTransformTry
    rw [hdec]
    show bulletinsTransformDoc validURL (some doc) = _
    simp only [bulletinsTransformDoc]
    rw [if_neg (by simp [hdate, htitle]), if_pos hlink]
  unfold bulletinsTransform
  rw [h1]
  rfl

/-- If any `times` entry lacks its day or time, the entry loop throws the
day/time `TypeError`. -/
theorem checkTimesEntries_mem_error (entries : List Yaml) (entry : Yaml)
    (hmem : entry ∈ entries)
    (hbad : truthy (entry.get "day") = false ∨ truthy (entry.get "time") = false) :
    checkTimesEntries entries = .error (.typeError "Day/date or time missing") := by
  induction entries with
  | nil => cases hmem
  | cons a rest ih =>
      by_cases ha : truthy (a.get "day") = false ∨ truthy (a.get "time") = false
      · simp only [checkTimesEntries]
        rw [if_pos ha]
      · simp only [checkTimesEntries]
        rw [if_neg ha]
        rcases List.mem_cons.mp hmem with he | he
        · subst he
          exact absurd hbad ha
        · exact ih he

/-- An event document with a truthy title and a `times` entry missing its
day or time is reported as `Invalid structure`. -/
theorem events_bad_times_invalidStructure
    (decode : String → Except YamlError (Option Yaml)) (tid text : String)
    (doc : Yaml) (lp : Option EventRec) (entries : List Yaml) (entry : Yaml)
    (hdec : decode text = .ok (some doc))
    (ht : truthy (doc.get "title") = true)
    (htimes : (doc.get "times").getD (Yaml.seq []) = .seq entries)
    (hmem : entry ∈ entries)
    (hbad : truthy (entry.get "day") = false ∨ truthy (entry.get "time") = false) :
    errCategory (eventsTransform decode tid text lp) = some .invalidStructure := by
  have hdocerr : ∃ m, eventsTransformDoc (some doc) lp = .error (.typeError m) := by
    cases hd : descTrim (doc.get "desc") with
    | error e =>
        obtain ⟨m, hm⟩ := descTrim_error _ _ hd
        refine ⟨m, ?_⟩
        simp only [eventsTransformDoc, hd]
        rw [hm]
    | ok d =>
        refine ⟨"Day/date or time missing", ?_⟩
        simp only [eventsTransformDoc, hd]
        rw [if_neg (by simp [ht]), if_neg (by simp [ht]), htimes]
        have hct : checkTimes (Yaml.seq entries) =
            .error (.typeError "Day/date or time missing") :=
          checkTimesEntries_mem_error entries entry hmem hbad
        rw [hct]
  obtain ⟨m, hm⟩ := hdocerr
  have h1 : eventsTransformTry decode text lp = .error (.typeError m) := by
    unfold eventsTransformTry
    rw [hdec]
    exact hm
  unfold eventsTransform
  rw [h1]
  rfl

/-- If any insert entry has a falsy title or an invalid link, the insert
loop throws a `TypeError`. -/
theorem checkInsertsEntries_mem_error (validURL : Yaml → Bool) (entries : List Yaml)
    (entry : Yaml) (hmem : entry ∈ entries)
    (hbad : truthy (entry.get "title") = false ∨
      linkOk validURL (entry.get "link") = false) :
    ∃ m, checkInsertsEntries validURL entries = .error (.typeError m) := by
  induction entries with
  | nil => cases hmem
  | cons a rest ih =>
      by_cases ha : truthy (a.get "title") = false
      · refine ⟨"Insert title missing", ?_⟩
        simp only [checkInsertsEntries]
        rw [if_pos ha]
      · by_cases hl : linkOk validURL (a.get "link") = false
        · refine ⟨"Insert link missing or invalid", ?_⟩
          simp only [checkInsertsEntries]
          rw [if_neg ha, if_pos hl]
        · rcases List.mem_cons.mp hmem with he | he
          · subst he
            rcases hbad with hb | hb
            · exact absurd hb ha
            · exact absurd hb hl
          · obtain ⟨m, hm⟩ := ih he
            refine ⟨m, ?_⟩
            simp only [checkInsertsEntries]
            rw [if_neg ha, if_neg hl]
            exact hm

/-- A bulletin document that passes the date/title and top-level link
checks but carries an insert entry with a falsy title or an invalid link is
reported as `Invalid structure`. -/
theorem bulletins_bad_insert_invalidStructure
    (decode : String → Except YamlError (Option Yaml)) (validURL : Yaml → Bool)
    (tid text : String) (doc : Yaml) (entries : List Yaml) (entry : Yaml)
    (hdec : decode text = .ok (some doc))
    (hdate : truthy (doc.get "date") = true) (htitle : truthy (doc.get "title") = true)
    (hlink : linkOk validURL (doc.get "link") = true)
    (hinserts : (doc.get "inserts").getD (Yaml.seq []) = .seq entries)
    (hmem : entry ∈ entries)
    (hbad : truthy (entry.get "title") = false ∨
      linkOk validURL (entry.get "link") = false) :
    errCategory (bulletinsTransform decode validURL tid text) = some .invalidStructure := by
  obtain ⟨m, hm⟩ := checkInsertsEntries_mem_error validURL entries entry hmem hbad
  have h1 : bulletinsTransformTry decode validURL text = .error (.typeError m) := by
    unfold bulletinsTransformTry
    rw [hdec]
    show bulletinsTransformDoc validURL (some doc) = _
    simp only [bulletinsTransformDoc]
    rw [if_neg (by simp [hdate, htitle]), if_neg (by simp [hlink]), hinserts]
    have hci : checkInserts validURL (Yaml.seq entries) = .error (.typeError m) := hm
    rw [hci]
  unfold bulletinsTransform
  rw [h1]
  rfl

/-! ### Claim theorems -/

/-- C1 (counterexample): the claim that any difference between two runs'
raw-text sequences — in particular a reorder — yields a different finalized
digest is false.  The per-tweet `hash.update` calls concatenate the raw
texts with no separator, so swapping the posts `"a"` and `""` changes the
sequence but leaves the accumulated digest input — hence the finalized
digest, whatever the fingerprint function — unchanged. -/
theorem digest_reorder_collision :
    (["p1", "p2"].map (fun tid => (reorderTweets tid).fullText)
       ≠ ["p2", "p1"].map (fun tid => (reorderTweets tid).fullText)) ∧
    digestInput ((processCollection (eventsTransform emptyDocDecode) reorderTweets
        ["p1", "p2"] initState).digestUpdates)
      = digestInput ((processCollection (eventsTransform emptyDocDecode) reorderTweets
        ["p2", "p1"] initState).digestUpdates) := by
  constructor
  · decide
  · decide

/-- C1 (amended): the finalized digest is determined solely by the
concatenation of the collection's raw post texts: identical sequences give
identical digests, and for an injective fingerprint function two digests
are equal exactly when the concatenated digest inputs are equal.  (A
difference that preserves the concatenation, such as moving an empty-text
post, does not change the digest.) -/
theorem digest_determined_by_concatenation (finalize : String → String)
    (texts1 texts2 : List String) :
    (texts1 = texts2 →
      collectionDigest finalize texts1 = collectionDigest finalize texts2) ∧
    (Function.Injective finalize →
      (collectionDigest finalize texts1 = collectionDigest finalize texts2 ↔
        digestInput texts1 = digestInput texts2)) := by
  refine ⟨fun h => by rw [h], fun hinj => ⟨fun h => hinj h, fun h => ?_⟩⟩
  simp [collectionDigest, h]

/-- Witness for the amended C1 at a concrete fingerprint and inputs. -/
theorem digest_determined_by_concatenation_witness :
    Function.Injective (fun s : String => s) ∧
    (collectionDigest (fun s : String => s) ["ab", "c"]
        = collectionDigest (fun s : String => s) ["a", "bc"] ↔
      digestInput ["ab", "c"] = digestInput ["a", "bc"]) :=
  ⟨fun _ _ h => h,
   (digest_determined_by_concatenation (fun s => s) ["ab", "c"] ["a", "bc"]).2
     (fun _ _ h => h)⟩

/-- C2 (counterexample): the claim that every occurrence of each shortened
link token is replaced is false.  The code calls `String.replace` with a
string pattern, which replaces only the first occurrence: with raw text
`"x x"` and the single link entity `(x, Y)` the parser receives `"Y x"`,
not the spec's replace-every-occurrence result `"Y Y"`. -/
theorem expand_replaces_only_first_occurrence :
    expandLinks "x x" [⟨"x", "Y"⟩] = "Y x" ∧
    replaceAllSpec "x x" "x" "Y" = "Y Y" ∧
    ("Y x" : String) ≠ "Y Y" := by
  refine ⟨by decide, ?_, by decide⟩
  simp [replaceAllSpec, replaceAllChars, matchesAt]

/-- C2 (amended): for each link entity in order, only the first occurrence
of the short token in the working text is substituted; when the token
occurs at most once this agrees with the spec's replace-every-occurrence
substitution. -/
theorem expandLinks_single_token_spec (s pat repl : String)
    (hp : pat ≠ "") (h : countMatches pat.data s.data ≤ 1) :
    expandLinks s [⟨pat, repl⟩] = replaceAllSpec s pat repl := by
  have hpd : pat.data ≠ [] := fun hd => hp (congrArg String.mk hd)
  show replaceFirst s pat repl = replaceAllSpec s pat repl
  unfold replaceFirst replaceAllSpec
  exact congrArg String.mk (replaceFirst_eq_replaceAll_chars pat.data repl.data s.data hpd h)

/-- Witness for the amended C2 at a concrete text and link. -/
theorem expandLinks_single_token_spec_witness :
    ("x" : String) ≠ "" ∧ countMatches "x".data "x y".data ≤ 1 ∧
    expandLinks "x y" [⟨"x", "Y"⟩] = replaceAllSpec "x y" "x" "Y" :=
  ⟨by decide, by decide,
   expandLinks_single_token_spec "x y" "x" "Y" (by decide) (by decide)⟩

/-- C3 (counterexample): the claim that the blank-line separator is used
exactly when both sides are non-empty is false.  A primary with empty
descriptive text followed by a continuation carrying `world` yields merged
descriptive text `"\n\nworld"` — the separator is inserted although the
primary's side is empty, where the claim demands `"world"`. -/
theorem continuation_separator_despite_empty_primary :
    ((eventsTransform titleThenContDecode "1" "title-only" none).lastPrimary.map
        EventRec.descriptive) = some "" ∧
    ((eventsTransform titleThenContDecode "2" "cont"
        (eventsTransform titleThenContDecode "1" "title-only" none).lastPrimary).element.isNone
      = true) ∧
    ((eventsTransform titleThenContDecode "2" "cont"
        (eventsTransform titleThenContDecode "1" "title-only" none).lastPrimary).errorDescriptor
      = none) ∧
    ((eventsTransform titleThenContDecode "2" "cont"
        (eventsTransform titleThenContDecode "1" "title-only" none).lastPrimary).lastPrimary.map
        EventRec.descriptive) = some "\n\nworld" ∧
    some "\n\nworld" ≠ some "world" := by
  exact ⟨by decide, by decide, by decide, by decide, by decide⟩

/-- C3 (amended): a continuation merged into a present primary always
appends with the blank-line separator: the separator depends only on the
continuation's descriptive text, which is non-empty for every continuation
candidate, so it is inserted even when the primary's descriptive text is
empty. -/
theorem continuation_merge_blank_sep (decode : String → Except YamlError (Option Yaml))
    (tid text : String) (doc : Yaml) (ev : EventRec)
    (hdec : decode text = .ok (some doc)) (hc : contCandidate doc = true) :
    eventsTransform decode tid text (some ev) =
      { element := none,
        lastPrimary := some { ev with descriptive := ev.descriptive ++ "\n\n" ++ contDesc doc },
        errorDescriptor := none } :=
  eventsTransform_cont_some decode tid text doc ev hdec hc

/-- Witness for the amended C3: merging into a primary with empty
descriptive text still inserts the blank line. -/
theorem continuation_merge_blank_sep_witness :
    contCandidate contDocExample = true ∧
    eventsTransform contOnlyDecode "2" "anytext" (some evExample) =
      { element := none,
        lastPrimary := some { evExample with
          descriptive := evExample.descriptive ++ "\n\n" ++ contDesc contDocExample },
        errorDescriptor := none } :=
  ⟨by decide,
   continuation_merge_blank_sep contOnlyDecode "2" "anytext" contDocExample evExample
     rfl (by decide)⟩

/-- C4: a continuation candidate processed while the carried last-primary
pointer is `none` produces an error descriptor (category `Unexpected`,
reason `Continuation tweet with no primary`) and emits no record. -/
theorem continuation_without_primary_errors
    (decode : String → Except YamlError (Option Yaml)) (tid text : String) (doc : Yaml)
    (hdec : decode text = .ok (some doc)) (hc : contCandidate doc = true) :
    eventsTransform decode tid text none =
      { element := none,
        lastPrimary := none,
        errorDescriptor :=
          some ⟨.unexpected, "Continuation tweet with no primary", none, tid⟩ } :=
  eventsTransform_cont_none decode tid text doc hdec hc

/-- Witness for C4 at a concrete continuation document. -/
theorem continuation_without_primary_errors_witness :
    contCandidate contDocExample = true ∧
    eventsTransform contOnlyDecode "7" "anytext" none =
      { element := none,
        lastPrimary := none,
        errorDescriptor :=
          some ⟨.unexpected, "Continuation tweet with no primary", none, "7"⟩ } :=
  ⟨by decide,
   continuation_without_primary_errors contOnlyDecode "7" "anytext" contDocExample
     rfl (by decide)⟩

/-- C5: whatever the transform does with each tweet (success, failure or
continuation), the digest accumulator receives exactly the raw
pre-link-expansion `full_text` of every timeline entry, once per entry, in
timeline order. -/
theorem digest_one_update_per_post {α : Type}
    (transform : String → String → Option α → TransformResult α)
    (tweets : String → Tweet) (timeline : List String) (st : CollState α) :
    (processCollection transform tweets timeline st).digestUpdates
      = st.digestUpdates ++ timeline.map (fun tid => (tweets tid).fullText) :=
  processCollection_digestUpdates transform tweets timeline st

/-- C6: the error category is `Invalid YAML` (the code's name for the
spec's InvalidSyntax) exactly when the document fails to decode — for both
transforms — and a successfully decoded document that is missing or has
invalid required fields is reported as `Invalid structure`, never `Invalid
YAML`, in each of the claim's enumerated cases: missing title (not a
continuation), an occurrence (`times`) entry missing its day or time, an
invalid or missing top-level bulletin link, and an insert entry with a
missing title or an invalid link. -/
theorem invalid_categories_partition :
    (∀ (decode : String → Except YamlError (Option Yaml)) (tid text : String)
        (lp : Option EventRec),
        errCategory (eventsTransform decode tid text lp) = some .invalidYaml ↔
          ∃ e, decode text = .error e) ∧
    (∀ (decode : String → Except YamlError (Option Yaml)) (validURL : Yaml → Bool)
        (tid text : String),
        errCategory (bulletinsTransform decode validURL tid text) = some .invalidYaml ↔
          ∃ e, decode text = .error e) ∧
    (∀ (decode : String → Except YamlError (Option Yaml)) (tid text : String)
        (doc : Yaml) (lp : Option EventRec),
        decode text = .ok (some doc) →
        truthy (doc.get "title") = false →
        contCandidate doc = false →
        errCategory (eventsTransform decode tid text lp) = some .invalidStructure) ∧
    (∀ (decode : String → Except YamlError (Option Yaml)) (tid text : String)
        (doc : Yaml) (lp : Option EventRec) (entries : List Yaml) (entry : Yaml),
        decode text = .ok (some doc) →
        truthy (doc.get "title") = true →
        (doc.get "times").getD (Yaml.seq []) = .seq entries →
        entry ∈ entries →
        (truthy (entry.get "day") = false ∨ truthy (entry.get "time") = false) →
        errCategory (eventsTransform decode tid text lp) = some .invalidStructure) ∧
    (∀ (decode : String → Except YamlError (Option Yaml)) (validURL : Yaml → Bool)
        (tid text : String) (doc : Yaml),
        decode text = .ok (some doc) →
        truthy (doc.get "date") = true →
        truthy (doc.get "title") = true →
        linkOk validURL (doc.get "link") = false →
        errCategory (bulletinsTransform decode validURL tid text) = some .invalidStructure) ∧
    (∀ (decode : String → Except YamlError (Option Yaml)) (validURL : Yaml → Bool)
        (tid text : String) (doc : Yaml) (entries : List Yaml) (entry : Yaml),
        decode text = .ok (some doc) →
        truthy (doc.get "date") = true →
        truthy (doc.get "title") = true →
        linkOk validURL (doc.get "link") = true →
        (doc.get "inserts").getD (Yaml.seq []) = .seq entries →
        entry ∈ entries →
        (truthy (entry.get "title") = false ∨
          linkOk validURL (entry.get "link") = false) →
        errCategory (bulletinsTransform decode validURL tid text) = some .invalidStructure) :=
  ⟨events_invalidYaml_iff, bulletins_invalidYaml_iff,
   events_missing_title_invalidStructure, events_bad_times_invalidStructure,
   bulletins_bad_link_invalidStructure, bulletins_bad_insert_invalidStructure⟩

/-- Witness for C6 at concrete decoders and documents: a decode failure, a
bare document (missing title), an event whose `times` entry lacks a time, a
bulletin with no link, and a bulletin whose insert entry has no link. -/
theorem invalid_categories_partition_witness :
    errCategory (eventsTransform failAllDecode "t" "x" none) = some .invalidYaml ∧
    errCategory (eventsTransform bareDocDecode "t" "x" none) = some .invalidStructure ∧
    errCategory (eventsTransform badTimesDecode "t" "x" none) = some .invalidStructure ∧
    errCategory (bulletinsTransform badLinkDecode (fun _ => false) "t" "x")
      = some .invalidStructure ∧
    errCategory (bulletinsTransform badInsertDecode (fun _ => true) "t" "x")
      = some .invalidStructure :=
  ⟨(invalid_categories_partition.1 failAllDecode "t" "x" none).mpr ⟨_, rfl⟩,
   invalid_categories_partition.2.2.1 bareDocDecode "t" "x" (.map []) none rfl
     (by decide) (by decide),
   invalid_categories_partition.2.2.2.1 badTimesDecode "t" "x" badTimesDoc none
     [Yaml.map [("day", Yaml.s "Mon")]] (Yaml.map [("day", Yaml.s "Mon")]) rfl
     (by decide) rfl (List.mem_singleton.mpr rfl) (Or.inr (by decide)),
   invalid_categories_partition.2.2.2.2.1 badLinkDecode (fun _ => false) "t" "x" badLinkDoc
     rfl (by decide) (by decide) (by decide),
   invalid_categories_partition.2.2.2.2.2 badInsertDecode (fun _ => true) "t" "x"
     badInsertDoc [Yaml.map [("title", Yaml.s "I")]] (Yaml.map [("title", Yaml.s "I")]) rfl
     (by decide) (by decide) (by decide) rfl (List.mem_singleton.mpr rfl)
     (Or.inr (by decide))⟩

/-- C7: when every freshly computed digest equals the published digest at
the same position and the dry-run flag is unset, the decision is to write
nothing; with the dry-run flag set, the decision is to emit the artifact to
the log without a store write. -/
theorem publish_skipped_when_unchanged (previous computed : Digests) (dryRun : Bool) :
    (previous = computed → dryRun = false →
      publishDecision previous computed dryRun = .noUpdates) ∧
    (dryRun = true → publishDecision previous computed dryRun = .dryRunEmit) := by
  constructor
  · intro he hd
    subst he hd
    simp [publishDecision, collectionsUpdated]
  · intro hd
    subst hd
    simp [publishDecision]

/-- Witness for C7 at concrete digest quadruples. -/
theorem publish_skipped_when_unchanged_witness :
    publishDecision ⟨"d1", "d2", "d3", "d4"⟩ ⟨"d1", "d2", "d3", "d4"⟩ false = .noUpdates ∧
    publishDecision ⟨"d1", "d2", "d3", "d4"⟩ ⟨"aa", "d2", "d3", "d4"⟩ true = .dryRunEmit :=
  ⟨(publish_skipped_when_unchanged ⟨"d1", "d2", "d3", "d4"⟩ ⟨"d1", "d2", "d3", "d4"⟩ false).1
     rfl rfl,
   (publish_skipped_when_unchanged ⟨"d1", "d2", "d3", "d4"⟩ ⟨"aa", "d2", "d3", "d4"⟩ true).2
     rfl⟩

/-- C8: the transform returns a record-or-error triple for every input
(totality is intrinsic to the embedding): every descriptor carries the
failing tweet's id, and a descriptor in the catch-all `Unexpected` category
can only be the continuation-with-no-primary error, every other exception
being a decode failure (`Invalid YAML`) or a validation failure (`Invalid
structure`).  Moreover the collection loop never stops early: whatever each
transform call returns, the loop performs exactly one digest update per
timeline entry. -/
theorem transform_never_throws_and_loop_continues :
    (∀ (decode : String → Except YamlError (Option Yaml)) (tid text : String)
        (lp : Option EventRec) (d : ErrorDescriptor),
        (eventsTransform decode tid text lp).errorDescriptor = some d →
        d.tweetId = tid ∧
          (d.category = .unexpected → d.reason = "Continuation tweet with no primary")) ∧
    (∀ (α : Type) (transform : String → String → Option α → TransformResult α)
        (tweets : String → Tweet) (timeline : List String) (st : CollState α),
        (processCollection transform tweets timeline st).digestUpdates.length
          = st.digestUpdates.length + timeline.length) := by
  constructor
  · intro decode tid text lp d h
    obtain ⟨e, hTry, hd⟩ := eventsTransform_descriptor decode tid text lp d h
    subst hd
    refine ⟨mkDescriptor_tweetId e tid, fun hcat => ?_⟩
    cases e with
    | yamlExc r m => simp [mkDescriptor] at hcat
    | typeError m => simp [mkDescriptor] at hcat
    | genericError m =>
        unfold eventsTransformTry at hTry
        cases hdec : decode text with
        | error ye =>
            rw [hdec] at hTry
            simp at hTry
        | ok doc? =>
            rw [hdec] at hTry
            rcases eventsTransformDoc_error_kind doc? lp _ hTry with ⟨m2, hm2⟩ | hg
            · exact absurd hm2 (by simp)
            · simp only [mkDescriptor]
              exact JsError.genericError.inj hg
  · intro α transform tweets timeline st
    rw [processCollection_digestUpdates]
    simp

/-- Witness for C8's per-descriptor part at a concrete failing tweet. -/
theorem transform_never_throws_and_loop_continues_witness :
    (⟨.unexpected, "Continuation tweet with no primary", none, "7"⟩ :
        ErrorDescriptor).tweetId = "7" ∧
    ((⟨.unexpected, "Continuation tweet with no primary", none, "7"⟩ :
        ErrorDescriptor).category = .unexpected →
      (⟨.unexpected, "Continuation tweet with no primary", none, "7"⟩ :
        ErrorDescriptor).reason = "Continuation tweet with no primary") :=
  transform_never_throws_and_loop_continues.1 contOnlyDecode "7" "x" none _ (by decide)

/-- C9: whenever the event transform reports an error its returned
last-primary pointer is `none`, and consequently a failed tweet followed by
a continuation candidate makes the continuation fail with the
no-primary `Unexpected` error — even when the carried state still held a
valid primary from earlier in the collection. -/
theorem error_resets_last_primary :
    (∀ (decode : String → Except YamlError (Option Yaml)) (tid text : String)
        (lp : Option EventRec) (d : ErrorDescriptor),
        (eventsTransform decode tid text lp).errorDescriptor = some d →
        (eventsTransform decode tid text lp).lastPrimary = none) ∧
    (∀ (decode : String → Except YamlError (Option Yaml)) (tweets : String → Tweet)
        (st : CollState EventRec) (t1 t2 : String) (doc2 : Yaml) (d1 : ErrorDescriptor),
        (eventsTransform decode t1 (expandLinks (tweets t1).fullText (tweets t1).links)
            st.lastPrimary).errorDescriptor = some d1 →
        decode (expandLinks (tweets t2).fullText (tweets t2).links) = .ok (some doc2) →
        contCandidate doc2 = true →
        (processCollection (eventsTransform decode) tweets [t1, t2] st).dataset = st.dataset ∧
        (processCollection (eventsTransform decode) tweets [t1, t2] st).errors
          = st.errors ++ [d1, ⟨.unexpected, "Continuation tweet with no primary", none, t2⟩] ∧
        (processCollection (eventsTransform decode) tweets [t1, t2] st).lastPrimary = none) := by
  constructor
  · intro decode tid text lp d h
    rw [eventsTransform_error_shape decode tid text lp d h]
  · intro decode tweets st t1 t2 doc2 d1 h1 h2 hc
    have hshape := eventsTransform_error_shape decode t1 _ st.lastPrimary d1 h1
    have hstep1 : processTweet (eventsTransform decode) tweets st t1 =
        ⟨st.dataset, st.errors ++ [d1], st.digestUpdates ++ [(tweets t1).fullText], none⟩ := by
      simp [processTweet, hshape]
    have hstep2 : eventsTransform decode t2
        (expandLinks (tweets t2).fullText (tweets t2).links) none =
        ⟨none, none, some ⟨.unexpected, "Continuation tweet with no primary", none, t2⟩⟩ :=
      eventsTransform_cont_none decode t2 _ doc2 h2 hc
    have hfinal : processCollection (eventsTransform decode) tweets [t1, t2] st =
        processTweet (eventsTransform decode) tweets
          (processTweet (eventsTransform decode) tweets st t1) t2 := rfl
    rw [hfinal, hstep1]
    simp [processTweet, hstep2, List.append_assoc]

/-- Witness for C9: a decode failure, then a continuation candidate,
starting from a state that still carries a valid primary. -/
theorem error_resets_last_primary_witness :
    ((eventsTransform failThenContDecode "p1"
        (expandLinks (failThenContTweets "p1").fullText (failThenContTweets "p1").links)
        stWithPrimary.lastPrimary).errorDescriptor = some badDescr) ∧
    ((processCollection (eventsTransform failThenContDecode) failThenContTweets
        ["p1", "p2"] stWithPrimary).errors
      = stWithPrimary.errors ++
          [badDescr, ⟨.unexpected, "Continuation tweet with no primary", none, "p2"⟩]) ∧
    ((processCollection (eventsTransform failThenContDecode) failThenContTweets
        ["p1", "p2"] stWithPrimary).lastPrimary = none) := by
  have h := error_resets_last_primary.2 failThenContDecode failThenContTweets stWithPrimary
    "p1" "p2" contDocExample badDescr (by decide) rfl (by decide)
  exact ⟨by decide, h.2.1, h.2.2⟩

/-- C10: each transform call returns exactly one of: a fresh record and no
error, a continuation merge with neither record nor error, or an error
descriptor with no record — never both a record and an error; consequently
one loop iteration grows the dataset and the error list by at most one
element in total. -/
theorem transform_result_exclusive :
    (∀ (decode : String → Except YamlError (Option Yaml)) (tid text : String)
        (lp : Option EventRec),
        ((eventsTransform decode tid text lp).element.isSome = true ∧
          (eventsTransform decode tid text lp).errorDescriptor = none) ∨
        ((eventsTransform decode tid text lp).element = none ∧
          (eventsTransform decode tid text lp).errorDescriptor = none) ∨
        ((eventsTransform decode tid text lp).element = none ∧
          (eventsTransform decode tid text lp).lastPrimary = none ∧
          (eventsTransform decode tid text lp).errorDescriptor.isSome = true)) ∧
    (∀ (decode : String → Except YamlError (Option Yaml)) (validURL : Yaml → Bool)
        (tid text : String),
        ((bulletinsTransform decode validURL tid text).element.isSome = true ∧
          (bulletinsTransform decode validURL tid text).errorDescriptor = none) ∨
        ((bulletinsTransform decode validURL tid text).element = none ∧
          (bulletinsTransform decode validURL tid text).errorDescriptor = none) ∨
        ((bulletinsTransform decode validURL tid text).element = none ∧
          (bulletinsTransform decode validURL tid text).lastPrimary = none ∧
          (bulletinsTransform decode validURL tid text).errorDescriptor.isSome = true)) ∧
    (∀ (α : Type) (transform : String → String → Option α → TransformResult α)
        (tweets : String → Tweet) (st : CollState α) (tid : String),
        (∀ tid2 text2 lp2, (transform tid2 text2 lp2).element.isSome = true →
            (transform tid2 text2 lp2).errorDescriptor = none) →
        (processTweet transform tweets st tid).dataset.length +
            (processTweet transform tweets st tid).errors.length
          ≤ st.dataset.length + st.errors.length + 1) := by
  refine ⟨?_, ?_, ?_⟩
  · intro decode tid text lp
    unfold eventsTransform
    cases ht : eventsTransformTry decode text lp with
    | ok p =>
        obtain ⟨el, l⟩ := p
        cases el with
        | some ev => exact .inl ⟨rfl, rfl⟩
        | none => exact .inr (.inl ⟨rfl, rfl⟩)
    | error e => exact .inr (.inr ⟨rfl, rfl, rfl⟩)
  · intro decode validURL tid text
    unfold bulletinsTransform
    cases ht : bulletinsTransformTry decode validURL text with
    | ok p =>
        obtain ⟨el, l⟩ := p
        cases el with
        | some b => exact .inl ⟨rfl, rfl⟩
        | none => exact .inr (.inl ⟨rfl, rfl⟩)
    | error e => exact .inr (.inr ⟨rfl, rfl, rfl⟩)
  · intro α transform tweets st tid hexcl
    have key : ∀ (r : TransformResult α),
        (r.element.isSome = true → r.errorDescriptor = none) →
        r.element.toList.length + r.errorDescriptor.toList.length ≤ 1 := by
      intro r hr
      cases hel : r.element with
      | some x =>
          rw [hr (by rw [hel]; rfl)]
          simp [hel]
      | none =>
          cases herr : r.errorDescriptor <;> simp [hel, herr]
    have hb := key (transform tid (expandLinks (tweets tid).fullText (tweets tid).links)
      st.lastPrimary) (hexcl tid _ st.lastPrimary)
    unfold processTweet
    simp only [List.length_append]
    omega

/-- Witness for C10's loop part: the hypothesis is discharged by the
transform's own exclusivity. -/
theorem transform_result_exclusive_witness :
    (processTweet (eventsTransform emptyDocDecode) reorderTweets initState "p1").dataset.length +
        (processTweet (eventsTransform emptyDocDecode) reorderTweets initState "p1").errors.length
      ≤ (initState (α := EventRec)).dataset.length +
          (initState (α := EventRec)).errors.length + 1 :=
  transform_result_exclusive.2.2 EventRec (eventsTransform emptyDocDecode) reorderTweets
    initState "p1"
    (fun tid2 text2 lp2 h => by
      rcases transform_result_exclusive.1 emptyDocDecode tid2 text2 lp2 with h1 | h1 | h1
      · exact h1.2
      · exact h1.2
      · rw [h1.1] at h
        simp at h)

end Refresh
